import Mathlib

/-
Shallow embedding of the har1101/agentcore-hitl repository.

The repository implements human-in-the-loop (HITL) gating for background agent
tasks in two operating modes:

  * src/agent.py — DynamoDB-backed ("durable") mode.  The DynamoDB table is
    modelled as an association list of items keyed by
    (session_id, interrupt_id); put_item conses a fresh item and reads take
    the first (most recent) match, which reproduces last-writer-wins.
    Timestamps (created_at / updated_at / ttl) carry no control flow and are
    omitted from the item model.

  * src/agent_without_dynamo/agent_without_dynamo.py — memory-only mode.
    The module-level dicts session_states / pending_approvals are modelled as
    association lists threaded explicitly through each operation.

Background threads (the bodies of background_work / resume_work) are modelled
as pure "finisher" functions from the engine outcome to the post-state plus a
Bool recording whether app.complete_async_task was invoked; the fire-and-forget
launch itself is represented by the Option action value a front-half returns.
-/

namespace HITL

/-- Python truthiness of an optional string: None and the empty string are
falsy, every other string is truthy. -/
def truthy : Option String → Bool
  | none => false
  | some s => s != ""

/-- Python truthiness of a plain string. -/
def truthyStr (s : String) : Bool := s != ""

/-- Python str.lower(), as character-wise ASCII lowercasing (every approval
answer the system compares is ASCII; "t"/"y" cannot arise from lowering a
non-ASCII character). -/
def pyLower (s : String) : String := ⟨s.data.map Char.toLower⟩

/-- Key-value view of the Strands agent state (`event.agent.state`), used as
the trust cache.  `set` conses and `get` takes the most recent binding. -/
abbrev KV := List (String × String)

def kvGet (st : KV) (k : String) : Option String :=
  (st.find? (fun p => p.1 == k)).map (·.2)

def kvSet (st : KV) (k v : String) : KV := (k, v) :: st

/-- Python dict over strings (the `pre_approved_tools` map): assignment to an
existing key updates it in place, a new key is appended, and `keys()` lists
keys in first-insertion order. -/
abbrev Dict := List (String × String)

def dictGet (d : Dict) (k : String) : Option String :=
  (d.find? (fun p => p.1 == k)).map (·.2)

def dictInsert (d : Dict) (k v : String) : Dict :=
  if d.any (fun p => p.1 == k) then
    d.map (fun p => if p.1 == k then (k, v) else p)
  else d ++ [(k, v)]

def dictKeys (d : Dict) : List String := d.map (·.1)

/-- Structured reason attached to an interrupt.  The approval hook always
builds it as a dict with keys tool / input / message; `tool?` is an Option
because the cold resume path reads it back with `reason.get("tool")`. -/
structure Reason where
  tool? : Option String
  input : String
  message : String
deriving DecidableEq

/-- One interrupt raised by the engine (`result.interrupts` entries). -/
structure EngInterrupt where
  id : String
  name : String
  reason : Reason
deriving DecidableEq

/-- Result object of one engine call: stop_reason, final message and the
interrupt list (nonempty in practice only when stop_reason = "interrupt"). -/
structure EngineResult where
  stop_reason : String
  message : String
  interrupts : List EngInterrupt
deriving DecidableEq

/-- Outcome of running the engine in a background thread: either a result
object or a raised exception (rendered to its message string). -/
inductive EngineOutcome where
  | result (r : EngineResult)
  | exn (e : String)
deriving DecidableEq

/-- Whether the outcome is a suspension, exactly as the code tests it
(`result.stop_reason == "interrupt"`; an exception is never a suspension). -/
def EngineOutcome.isInterrupt : EngineOutcome → Bool
  | .result r => r.stop_reason == "interrupt"
  | .exn _ => false

/-- DANGEROUS_TOOLS constant, identical in both modules. -/
def DANGEROUS_TOOLS : List String := ["delete_files", "execute_command", "modify_database"]

/-- Trust-cache key built by the hook. -/
def trust_key (app_name tool_name : String) : String :=
  app_name ++ "-" ++ tool_name ++ "-trust"

/-- Cancellation message assigned to `event.cancel_tool` (the surrounding
quotes of the f-string are elided). -/
def deny_msg (tool_name : String) : String :=
  "User denied execution of " ++ tool_name

/-- What the gate does to the intercepted tool call: let it proceed, cancel it
with a message, or raise a suspension carrying the interrupt name and reason. -/
inductive GateStep where
  | proceed
  | deny (msg : String)
  | interruptRaised (iname : String) (reason : Reason)
deriving DecidableEq

/-- ApprovalHook.approve up to the point where it either returns, cancels, or
calls `event.interrupt` (agent.py lines 181-216).  `pre` is the
pre_approved_tools map; the hook of agent_without_dynamo.py (lines 57-78) is
the same code without the pre-approval branch, i.e. this function at
`pre = []`.  Returns the updated trust cache and the gate step. -/
def approve_hook (app_name : String) (pre : Dict) (st : KV)
    (tool_name tool_input : String) : KV × GateStep :=
  if tool_name ∈ DANGEROUS_TOOLS then
    if kvGet st (trust_key app_name tool_name) = some "trusted" then
      (st, .proceed)
    else
      match dictGet pre tool_name with
      | some approval =>
        if pyLower approval = "t" then
          (kvSet st (trust_key app_name tool_name) "trusted", .proceed)
        else if pyLower approval ≠ "y" then
          (st, .deny (deny_msg tool_name))
        else
          (st, .proceed)
      | none =>
        (st, .interruptRaised (app_name ++ "-" ++ tool_name ++ "-approval")
          { tool? := some tool_name
            input := tool_input
            message := "Tool " ++ tool_name ++ " requires human approval before execution" })
  else (st, .proceed)

/-- Processing of the answer returned by a raised interrupt once the session
is resumed (agent.py lines 218-226; agent_without_dynamo.py lines 80-88; the
pre-approval branch above repeats the same block verbatim in the source). -/
def process_approval (st : KV) (app_name tool_name approval : String) : KV × GateStep :=
  if pyLower approval = "t" then
    (kvSet st (trust_key app_name tool_name) "trusted", .proceed)
  else if pyLower approval ≠ "y" then
    (st, .deny (deny_msg tool_name))
  else
    (st, .proceed)

namespace Agent

/-- Payload of a terminal TaskResult item: either success
(message + stop_reason) or error, exactly the two dict shapes the code
serialises into the result attribute. -/
inductive ResultPayload where
  | ok (message stop_reason : String)
  | err (error : String)
deriving DecidableEq

/-- Saved form of one interrupt inside the ResumableState record. -/
structure SavedInterrupt where
  id : String
  name : String
  reason : HITL.Reason
deriving DecidableEq

/-- ResumableState: original prompt plus the interrupts of the suspension
(the `state` attribute of the `__state__` item). -/
structure SavedState where
  prompt : String
  interrupts : List SavedInterrupt
deriving DecidableEq

/-- One DynamoDB item of the hitl-approvals table.  Keyed by
(session_id, interrupt_id); attributes absent on an item are None.
created_at / updated_at / ttl are omitted (no control flow reads them). -/
structure Item where
  session_id : String
  interrupt_id : String
  status : String
  response : Option String
  approver : Option String
  name : Option String
  reason : Option HITL.Reason
  state : Option SavedState
  result : Option ResultPayload
deriving DecidableEq

/-- The table, newest item first; reads take the first key match, so a later
put of the same key shadows the earlier item (last-writer-wins). -/
abbrev Table := List Item

/-- Item with only the key and status set. -/
def mkItem (sid iid status : String) : Item :=
  { session_id := sid, interrupt_id := iid, status := status,
    response := none, approver := none, name := none, reason := none,
    state := none, result := none }

/-- table.get_item on the composite key. -/
def getItem (t : Table) (sid iid : String) : Option Item :=
  t.find? (fun it => it.session_id == sid && it.interrupt_id == iid)

/-- table.put_item: replaces the item at the key (shadowing). -/
def putItem (t : Table) (it : Item) : Table := it :: t

/-- save_pending_approval (agent.py lines 39-52). -/
def save_pending_approval (t : Table) (sid iid name : String) (reason : HITL.Reason) : Table :=
  putItem t { mkItem sid iid "pending" with name := some name, reason := some reason }

/-- update_approval_status (agent.py lines 87-104).  DynamoDB update_item
with a plain SET and no condition expression: if the item exists its
status/response/approver attributes are overwritten, and if it does not exist
a new item holding just the key and those attributes is created. -/
def update_approval_status (t : Table) (sid iid status response approver : String) : Table :=
  match getItem t sid iid with
  | some it => putItem t { it with status := status, response := some response,
                                   approver := some approver }
  | none => putItem t { mkItem sid iid status with response := some response,
                                                   approver := some approver }

/-- get_approval_response (agent.py lines 107-113): the response attribute if
the item exists in a terminal status, otherwise None. -/
def get_approval_response (t : Table) (sid iid : String) : Option String :=
  match getItem t sid iid with
  | some it =>
    if it.status == "approved" || it.status == "rejected" then it.response else none
  | none => none

/-- save_agent_result (agent.py lines 116-128). -/
def save_agent_result (t : Table) (sid : String) (payload : ResultPayload) : Table :=
  putItem t { mkItem sid "__result__" "completed" with result := some payload }

/-- get_agent_result (agent.py lines 131-137). -/
def get_agent_result (t : Table) (sid : String) : Option ResultPayload :=
  (getItem t sid "__result__").bind (·.result)

/-- save_agent_state (agent.py lines 140-152). -/
def save_agent_state (t : Table) (sid : String) (st : SavedState) : Table :=
  putItem t { mkItem sid "__state__" "interrupted" with state := some st }

/-- get_agent_state (agent.py lines 155-161). -/
def get_agent_state (t : Table) (sid : String) : Option SavedState :=
  (getItem t sid "__state__").bind (·.state)

/-- Payload fields read by approve_request / reject_request; a missing dict
key is None (payload.get defaults are applied at the use sites). -/
structure ApprovePayload where
  interrupt_id? : Option String
  response? : Option String
  approver? : Option String
deriving DecidableEq

structure RejectPayload where
  interrupt_id? : Option String
  reason? : Option String
  approver? : Option String
deriving DecidableEq

/-- Reply of the approve / reject actions. -/
inductive AReply where
  | errorR (msg : String)
  | approvedR (session_id interrupt_id response : String)
  | rejectedR (session_id interrupt_id reason : String)
deriving DecidableEq

/-- approve_request (agent.py lines 392-410). -/
def approve_request (t : Table) (sid : String) (p : ApprovePayload) : AReply × Table :=
  match p.interrupt_id? with
  | some iid =>
    if HITL.truthyStr iid then
      let response := p.response?.getD "y"
      let approver := p.approver?.getD "cli"
      (.approvedR sid iid response,
       update_approval_status t sid iid "approved" response approver)
    else (.errorR "interrupt_id is required", t)
  | none => (.errorR "interrupt_id is required", t)

/-- reject_request (agent.py lines 413-431): the stored response is the
literal "n"; the caller-supplied reason is only echoed in the reply. -/
def reject_request (t : Table) (sid : String) (p : RejectPayload) : AReply × Table :=
  match p.interrupt_id? with
  | some iid =>
    if HITL.truthyStr iid then
      let reason := p.reason?.getD "User rejected"
      let approver := p.approver?.getD "cli"
      (.rejectedR sid iid reason,
       update_approval_status t sid iid "rejected" "n" approver)
    else (.errorR "interrupt_id is required", t)
  | none => (.errorR "interrupt_id is required", t)

/-- In-memory session_states entry of agent.py.  A waiting entry always
carries the agent handle and the previous result (they are stored together at
every write site), so the constructor records the suspension's interrupts. -/
inductive DSessState where
  | waiting (interrupts : List HITL.EngInterrupt)
  | completed (message : String)
  | errored (error : String)
deriving DecidableEq

/-- The status string stored in the session_states dict entry. -/
def DSessState.statusStr : DSessState → String
  | .waiting _ => "waiting_approval"
  | .completed _ => "completed"
  | .errored _ => "error"

/-- The session_states module dict, newest entry first. -/
abbrev DMem := List (String × DSessState)

def lookupD (mem : DMem) (sid : String) : Option DSessState :=
  (mem.find? (fun p => p.1 == sid)).map (·.2)

def setD (mem : DMem) (sid : String) (st : DSessState) : DMem := (sid, st) :: mem

/-- Reply of the resume action. -/
inductive DResumeReply where
  | errNoSession (sid : String)
  | errNotWaiting (status : String)
  | errApprovalMissing (interrupt : HITL.EngInterrupt)
  | errNotAllAnswered (pending : List SavedInterrupt)
  | errNoPrompt
  | resuming (sid task_id : String) (pre_approved_tools : Option (List String))
deriving DecidableEq

def DResumeReply.isError : DResumeReply → Bool
  | .resuming _ _ _ => false
  | _ => true

/-- The engine call a resume launches in its background thread: fast path
re-enters the same agent handle with per-interrupt-id responses, cold path
re-runs the original prompt on a fresh agent whose hook receives the
pre-approved tool map. -/
inductive DResumeAction where
  | fastResume (responses : List (String × String))
  | coldResume (prompt : String) (pre_approved_tools : HITL.Dict)
deriving DecidableEq

/-- Fast-path response collection (agent.py lines 539-554): walk the cached
suspension in order; on the first interrupt whose recorded response is falsy
(absent, non-terminal, or the empty string) return it as the error. -/
def collect_responses (t : Table) (sid : String) :
    List HITL.EngInterrupt → Except HITL.EngInterrupt (List (String × String))
  | [] => .ok []
  | i :: rest =>
    let r := get_approval_response t sid i.id
    if HITL.truthy r then
      match collect_responses t sid rest with
      | .ok rs => .ok ((i.id, r.getD "") :: rs)
      | .error j => .error j
    else .error i

/-- Cold-path scan over the saved interrupts (agent.py lines 450-460),
accumulating the pre_approved_tools dict and the unanswered list.  An
answered interrupt whose reason lacks a truthy tool name contributes to
neither (the code silently drops it). -/
def build_pre (t : Table) (sid : String) :
    List SavedInterrupt → HITL.Dict → List SavedInterrupt → HITL.Dict × List SavedInterrupt
  | [], pre, pending => (pre, pending)
  | i :: rest, pre, pending =>
    let r := get_approval_response t sid i.id
    if HITL.truthy r then
      match i.reason.tool? with
      | some tn =>
        if HITL.truthyStr tn then
          build_pre t sid rest (HITL.dictInsert pre tn (r.getD "")) pending
        else build_pre t sid rest pre pending
      | none => build_pre t sid rest pre pending
    else build_pre t sid rest pre (pending ++ [i])

/-- resume_agent_task (agent.py lines 434-586) up to the launch of the
background thread.  `task_id` is the identifier app.add_async_task would
return.  The second component is the engine call the launched thread would
perform (none when the request fails before launching one). -/
def resume_agent_task (mem : DMem) (t : Table) (sid task_id : String) :
    DResumeReply × Option DResumeAction :=
  match lookupD mem sid with
  | none =>
    match get_agent_state t sid with
    | none => (.errNoSession sid, none)
    | some saved =>
      let bp := build_pre t sid saved.interrupts [] []
      if bp.2.isEmpty then
        if HITL.truthyStr saved.prompt then
          (.resuming sid task_id (some (HITL.dictKeys bp.1)),
           some (.coldResume saved.prompt bp.1))
        else (.errNoPrompt, none)
      else (.errNotAllAnswered bp.2, none)
  | some st =>
    match st with
    | .waiting interrupts =>
      match collect_responses t sid interrupts with
      | .error i => (.errApprovalMissing i, none)
      | .ok rs => (.resuming sid task_id none, some (.fastResume rs))
    | _ => (.errNotWaiting st.statusStr, none)

/-- Tail of background_work in start_agent_task (agent.py lines 320-369) as a
function of the engine outcome: persists approvals / state / result, updates
session_states, and reports whether complete_async_task ran (always, in this
mode — the finally block is unconditional). -/
def start_finish (t : Table) (mem : DMem) (sid prompt : String) (o : HITL.EngineOutcome) :
    Table × DMem × Bool :=
  match o with
  | .result r =>
    if r.stop_reason == "interrupt" then
      let t1 := r.interrupts.foldl
        (fun acc i => save_pending_approval acc sid i.id i.name i.reason) t
      let t2 := save_agent_state t1 sid
        { prompt := prompt,
          interrupts := r.interrupts.map (fun i => ⟨i.id, i.name, i.reason⟩) }
      (t2, setD mem sid (.waiting r.interrupts), true)
    else
      (save_agent_result t sid (.ok r.message r.stop_reason),
       setD mem sid (.completed r.message), true)
  | .exn e =>
    (save_agent_result t sid (.err e), setD mem sid (.errored e), true)

/-- Tail of resume_work on the cold path (agent.py lines 490-515): on a new
suspension the approvals and a fresh ResumableState are saved; on an
exception only the error result is saved (session_states is not touched);
complete_async_task always runs. -/
def cold_resume_finish (t : Table) (mem : DMem) (sid prompt : String)
    (o : HITL.EngineOutcome) : Table × DMem × Bool :=
  match o with
  | .result r =>
    if r.stop_reason == "interrupt" then
      let t1 := r.interrupts.foldl
        (fun acc i => save_pending_approval acc sid i.id i.name i.reason) t
      let t2 := save_agent_state t1 sid
        { prompt := prompt,
          interrupts := r.interrupts.map (fun i => ⟨i.id, i.name, i.reason⟩) }
      (t2, setD mem sid (.waiting r.interrupts), true)
    else
      (save_agent_result t sid (.ok r.message r.stop_reason),
       setD mem sid (.completed r.message), true)
  | .exn e => (save_agent_result t sid (.err e), mem, true)

/-- Tail of resume_work on the fast path (agent.py lines 561-576): a new
suspension saves the approvals but not a new ResumableState; an exception
saves only the error result; complete_async_task always runs. -/
def fast_resume_finish (t : Table) (mem : DMem) (sid : String)
    (o : HITL.EngineOutcome) : Table × DMem × Bool :=
  match o with
  | .result r =>
    if r.stop_reason == "interrupt" then
      (r.interrupts.foldl
        (fun acc i => save_pending_approval acc sid i.id i.name i.reason) t,
       setD mem sid (.waiting r.interrupts), true)
    else
      (save_agent_result t sid (.ok r.message r.stop_reason),
       setD mem sid (.completed r.message), true)
  | .exn e => (save_agent_result t sid (.err e), mem, true)

/-- Reply of the status action (agent.py lines 610-639). -/
inductive StatusReply where
  | inMem (status : String)
  | interruptedS (interrupts : List SavedInterrupt)
  | fromResult (status : String)
  | notFound
deriving DecidableEq

/-- get_status: memory first; else the durable ResumableState ("interrupted");
else the durable TaskResult; else not found. -/
def get_status (mem : DMem) (t : Table) (sid : String) : StatusReply :=
  match lookupD mem sid with
  | some st => .inMem st.statusStr
  | none =>
    match get_agent_state t sid with
    | some saved => .interruptedS saved.interrupts
    | none =>
      match get_agent_result t sid with
      | some (.ok _ _) => .fromResult "completed"
      | some (.err _) => .fromResult "error"
      | none => .notFound

/-- Whether the session currently counts as awaiting approval, in the code's
own status vocabulary: a cached TaskSession in status waiting_approval, or —
with no cached session — a durable ResumableState (reported by get_status as
"interrupted", the durable encoding of the waiting state). -/
def status_waiting (mem : DMem) (t : Table) (sid : String) : Bool :=
  match get_status mem t sid with
  | .inMem s => s == "waiting_approval"
  | .interruptedS _ => true
  | _ => false

end Agent

namespace MemAgent

/-- One entry of the pending_approvals lists of agent_without_dynamo.py.
created_at / updated_at are omitted (never read by control flow). -/
structure MemApproval where
  session_id : String
  interrupt_id : String
  name : String
  reason : HITL.Reason
  status : String
  response : Option String
  approver : Option String
  rejection_reason : Option String
deriving DecidableEq

/-- A freshly recorded pending approval (lines 192-200 / 399-407). -/
def mkPending (sid : String) (i : HITL.EngInterrupt) : MemApproval :=
  { session_id := sid, interrupt_id := i.id, name := i.name, reason := i.reason,
    status := "pending", response := none, approver := none, rejection_reason := none }

/-- The module-level pending_approvals dict: session_id to approval list. -/
abbrev PendMap := List (String × List MemApproval)

def lookupP (pend : PendMap) (sid : String) : Option (List MemApproval) :=
  (pend.find? (fun p => p.1 == sid)).map (·.2)

def setP (pend : PendMap) (sid : String) (l : List MemApproval) : PendMap :=
  (sid, l) :: pend

/-- pending_approvals.pop(session_id, None). -/
def popP (pend : PendMap) (sid : String) : PendMap :=
  pend.filter (fun p => p.1 != sid)

/-- pending_approvals.setdefault(sid, []).append(...) over a suspension's
interrupts. -/
def pend_append (pend : PendMap) (sid : String) (is : List HITL.EngInterrupt) : PendMap :=
  setP pend sid ((lookupP pend sid).getD [] ++ is.map (mkPending sid))

/-- The for-loop of approve_request / reject_request: replace the first list
entry whose interrupt_id matches, or report that none was found. -/
def updateFirstApproval (l : List MemApproval) (iid : String)
    (f : MemApproval → MemApproval) : Option (List MemApproval) :=
  match l with
  | [] => none
  | a :: rest =>
    if a.interrupt_id == iid then some (f a :: rest)
    else (updateFirstApproval rest iid f).map (a :: ·)

/-- The first approval of the session with the given interrupt_id, as the
approve/reject loops locate it. -/
def findApproval (pend : PendMap) (sid iid : String) : Option MemApproval :=
  ((lookupP pend sid).getD []).find? (fun a => a.interrupt_id == iid)

/-- approve_request (agent_without_dynamo.py lines 271-302). -/
def approve_request (pend : PendMap) (sid : String) (p : Agent.ApprovePayload) :
    Agent.AReply × PendMap :=
  match p.interrupt_id? with
  | some iid =>
    if HITL.truthyStr iid then
      let response := p.response?.getD "y"
      let approver := p.approver?.getD "cli"
      match updateFirstApproval ((lookupP pend sid).getD []) iid
          (fun a => { a with status := "approved", response := some response,
                             approver := some approver }) with
      | some l2 => (.approvedR sid iid response, setP pend sid l2)
      | none => (.errorR ("Approval not found: " ++ iid), pend)
    else (.errorR "interrupt_id is required", pend)
  | none => (.errorR "interrupt_id is required", pend)

/-- reject_request (agent_without_dynamo.py lines 305-337): the stored
response is the literal "n"; the reason goes into a separate
rejection_reason field and is echoed in the reply. -/
def reject_request (pend : PendMap) (sid : String) (p : Agent.RejectPayload) :
    Agent.AReply × PendMap :=
  match p.interrupt_id? with
  | some iid =>
    if HITL.truthyStr iid then
      let reason := p.reason?.getD "User rejected"
      let approver := p.approver?.getD "cli"
      match updateFirstApproval ((lookupP pend sid).getD []) iid
          (fun a => { a with status := "rejected", response := some "n",
                             approver := some approver,
                             rejection_reason := some reason }) with
      | some l2 => (.rejectedR sid iid reason, setP pend sid l2)
      | none => (.errorR ("Approval not found: " ++ iid), pend)
    else (.errorR "interrupt_id is required", pend)
  | none => (.errorR "interrupt_id is required", pend)

/-- The answer-lookup loop inside resume_agent_task (lines 360-364): the
response of the first approval matching the interrupt_id in a terminal
status. -/
def mem_approval_response (pend : PendMap) (sid iid : String) : Option String :=
  match ((lookupP pend sid).getD []).find?
      (fun a => a.interrupt_id == iid &&
        (a.status == "approved" || a.status == "rejected")) with
  | some a => a.response
  | none => none

/-- In-memory session_states entry of agent_without_dynamo.py.  A waiting
entry always carries agent, result, prompt and (some) task_id; the Option on
task_id keeps the explicit `if not task_id` guard representable. -/
inductive MemSessState where
  | waiting (interrupts : List HITL.EngInterrupt) (prompt : String) (task_id? : Option String)
  | completed (message : String)
  | errored (error : String)
deriving DecidableEq

def MemSessState.statusStr : MemSessState → String
  | .waiting _ _ _ => "waiting_approval"
  | .completed _ => "completed"
  | .errored _ => "error"

abbrev MMem := List (String × MemSessState)

def lookupM (mem : MMem) (sid : String) : Option MemSessState :=
  (mem.find? (fun p => p.1 == sid)).map (·.2)

def setM (mem : MMem) (sid : String) (st : MemSessState) : MMem := (sid, st) :: mem

/-- Reply of the memory-only resume action. -/
inductive MResumeReply where
  | errNoSession (sid : String)
  | errNotWaiting (status : String)
  | errApprovalMissing (interrupt_id name : String)
  | errNoTaskId
  | resuming (sid task_id : String)
deriving DecidableEq

def MResumeReply.isError : MResumeReply → Bool
  | .resuming _ _ => false
  | _ => true

/-- Fast-path response collection (lines 357-377), memory variant; the first
interrupt whose looked-up response is falsy aborts with an error. -/
def collect_responses (pend : PendMap) (sid : String) :
    List HITL.EngInterrupt → Except HITL.EngInterrupt (List (String × String))
  | [] => .ok []
  | i :: rest =>
    let r := mem_approval_response pend sid i.id
    if HITL.truthy r then
      match collect_responses pend sid rest with
      | .ok rs => .ok ((i.id, r.getD "") :: rs)
      | .error j => .error j
    else .error i

/-- resume_agent_task (agent_without_dynamo.py lines 340-450) up to the
launch of the background thread: only a fast path exists; the action is the
per-interrupt-id answer list handed to the same agent handle. -/
def resume_agent_task (mem : MMem) (pend : PendMap) (sid : String) :
    MResumeReply × Option (List (String × String)) :=
  match lookupM mem sid with
  | none => (.errNoSession sid, none)
  | some st =>
    match st with
    | .waiting interrupts _prompt task_id? =>
      match collect_responses pend sid interrupts with
      | .error i => (.errApprovalMissing i.id i.name, none)
      | .ok rs =>
        match task_id? with
        | none => (.errNoTaskId, none)
        | some tid => (.resuming sid tid, some rs)
    | _ => (.errNotWaiting st.statusStr, none)

/-- Tail of background_work in start_agent_task (lines 170-237): on a
suspension the pending approvals and the waiting session (with the original
task_id) are recorded and complete_async_task is NOT called; on completion
the pending list is dropped and the task completes; on an exception the task
completes.  The Bool reports whether complete_async_task ran. -/
def start_finish (mem : MMem) (pend : PendMap) (sid prompt task_id : String)
    (o : HITL.EngineOutcome) : MMem × PendMap × Bool :=
  match o with
  | .result r =>
    if r.stop_reason == "interrupt" then
      (setM mem sid (.waiting r.interrupts prompt (some task_id)),
       pend_append pend sid r.interrupts, false)
    else
      (setM mem sid (.completed r.message), popP pend sid, true)
  | .exn e => (setM mem sid (.errored e), pend, true)

/-- Tail of resume_work in resume_agent_task (lines 387-440): same policy,
with the waiting entry inheriting the original prompt and task_id. -/
def resume_finish (mem : MMem) (pend : PendMap) (sid prompt task_id : String)
    (o : HITL.EngineOutcome) : MMem × PendMap × Bool :=
  match o with
  | .result r =>
    if r.stop_reason == "interrupt" then
      (setM mem sid (.waiting r.interrupts prompt (some task_id)),
       pend_append pend sid r.interrupts, false)
    else
      (setM mem sid (.completed r.message), popP pend sid, true)
  | .exn e => (setM mem sid (.errored e), pend, true)

/-- get_status (lines 468-479): the cached status, or not found. -/
def get_status (mem : MMem) (sid : String) : Agent.StatusReply :=
  match lookupM mem sid with
  | some st => .inMem st.statusStr
  | none => .notFound

/-- Whether the session currently counts as awaiting approval. -/
def status_waiting (mem : MMem) (sid : String) : Bool :=
  match get_status mem sid with
  | .inMem s => s == "waiting_approval"
  | _ => false

end MemAgent

/-! Concrete fixtures used by closed counterexamples and witnesses. -/

namespace Fx

/-- Reason dict as the hook builds it for delete_files. -/
def r1 : Reason := { tool? := some "delete_files", input := "x", message := "m" }

/-- Reason dict as the hook builds it for execute_command. -/
def r2 : Reason := { tool? := some "execute_command", input := "y", message := "m" }

/-- Memory-mode pending map holding a single pending approval i1 of s1. -/
def pend0 : MemAgent.PendMap := MemAgent.pend_append [] "s1" [⟨"i1", "nm", r1⟩]

/-- pend0 after approving i1 with response "y" by alice. -/
def pend1 : MemAgent.PendMap :=
  (MemAgent.approve_request pend0 "s1" ⟨some "i1", some "y", some "alice"⟩).2

/-- A second approve on the same, already-terminal interrupt. -/
def call2 : Agent.AReply × MemAgent.PendMap :=
  MemAgent.approve_request pend1 "s1" ⟨some "i1", some "n", some "bob"⟩

/-- DynamoDB table holding a pending record for i2 and a terminal approval
with empty response for i1, both of session s1. -/
def t2 : Agent.Table :=
  Agent.update_approval_status (Agent.save_pending_approval [] "s1" "i2" "nm2" r2)
    "s1" "i1" "approved" "" "cli"

def I1 : EngInterrupt := ⟨"i1", "hitl-demo-delete_files-approval", r1⟩

def I2 : EngInterrupt := ⟨"i2", "hitl-demo-execute_command-approval", r2⟩

/-- Cached session whose active suspension holds I1 and I2. -/
def mem2 : Agent.DMem := [("s1", .waiting [I1, I2])]

/-- ResumableState of the C6 scenario. -/
def st6 : Agent.SavedState := ⟨"delete tmp x", [⟨"i1", "hitl-demo-delete_files-approval", r1⟩]⟩

/-- Table holding only that ResumableState. -/
def t6 : Agent.Table := Agent.save_agent_state [] "s1" st6

/-- An engine outcome that terminates normally. -/
def doneOutcome : EngineOutcome := .result ⟨"end_turn", "done", []⟩

/-- An engine result that suspends on one interrupt. -/
def intrResult : EngineResult := ⟨"interrupt", "", [I1]⟩

/-- C8 scenario: approval i1 answered "t" plus the saved state of s1. -/
def t8 : Agent.Table :=
  Agent.save_agent_state
    (Agent.update_approval_status (Agent.save_pending_approval [] "s1" "i1" "nm" r1)
      "s1" "i1" "approved" "t" "cli")
    "s1" ⟨"do it", [⟨"i1", "nm", r1⟩]⟩

/-- Saved-state forms of the two interrupts of the C2 scenario. -/
def S1 : Agent.SavedInterrupt := ⟨"i1", "hitl-demo-delete_files-approval", r1⟩

def S2 : Agent.SavedInterrupt := ⟨"i2", "hitl-demo-execute_command-approval", r2⟩

/-- The C2 table extended with the durable ResumableState of s1, for
exercising the cold resume path after a restart. -/
def t2c : Agent.Table := Agent.save_agent_state t2 "s1" ⟨"go", [S1, S2]⟩

end Fx

/-! Helper lemmas about the store models. -/

namespace Agent

theorem getItem_put_self (t : Table) (it : Item) (sid iid : String)
    (h1 : it.session_id = sid) (h2 : it.interrupt_id = iid) :
    getItem (putItem t it) sid iid = some it := by
  unfold getItem putItem
  rw [List.find?_cons_of_pos]
  simp [h1, h2]

theorem getItem_put_other (t : Table) (it : Item) (sid iid : String)
    (h : ¬(it.session_id = sid ∧ it.interrupt_id = iid)) :
    getItem (putItem t it) sid iid = getItem t sid iid := by
  unfold getItem putItem
  rw [List.find?_cons_of_neg]
  simp only [Bool.and_eq_true, beq_iff_eq]
  exact fun hc => h hc

theorem getItem_key {t : Table} {sid iid : String} {it : Item}
    (h : getItem t sid iid = some it) :
    it.session_id = sid ∧ it.interrupt_id = iid := by
  have hp := List.find?_some h
  simpa [Bool.and_eq_true, beq_iff_eq] using hp

theorem getItem_update (t : Table) (sid iid s r a : String) :
    ∃ it, getItem (update_approval_status t sid iid s r a) sid iid = some it ∧
      it.status = s ∧ it.response = some r ∧ it.approver = some a := by
  unfold update_approval_status
  cases h : getItem t sid iid with
  | none => exact ⟨_, getItem_put_self _ _ _ _ rfl rfl, rfl, rfl, rfl⟩
  | some it0 =>
    obtain ⟨h1, h2⟩ := getItem_key h
    exact ⟨_, getItem_put_self _ _ _ _ h1 h2, rfl, rfl, rfl⟩

theorem get_state_after_result (t : Table) (sid : String) (p : ResultPayload) :
    get_agent_state (save_agent_result t sid p) sid = get_agent_state t sid := by
  unfold get_agent_state save_agent_result
  rw [getItem_put_other]
  simp [mkItem]

theorem get_state_after_save_state (t : Table) (sid : String) (st : SavedState) :
    get_agent_state (save_agent_state t sid st) sid = some st := by
  simp [get_agent_state, save_agent_state, putItem, getItem, mkItem, List.find?_cons_of_pos]

theorem get_state_after_pendings (sid sid2 : String) (is : List HITL.EngInterrupt)
    (h : ∀ i ∈ is, i.id ≠ "__state__") (t : Table) :
    get_agent_state
      (is.foldl (fun acc i => save_pending_approval acc sid2 i.id i.name i.reason) t) sid =
    get_agent_state t sid := by
  induction is generalizing t with
  | nil => rfl
  | cons i rest ih =>
    rw [List.foldl_cons]
    rw [ih (fun j hj => h j (List.mem_cons_of_mem _ hj))]
    unfold get_agent_state save_pending_approval
    rw [getItem_put_other]
    simp only [mkItem, not_and]
    exact fun _ => h i (List.mem_cons_self _ _)

theorem collect_ok (t : Table) (sid : String) (l : List HITL.EngInterrupt)
    (h : ∀ i ∈ l, HITL.truthy (get_approval_response t sid i.id)) :
    collect_responses t sid l =
      .ok (l.map (fun i => (i.id, (get_approval_response t sid i.id).getD ""))) := by
  induction l with
  | nil => rfl
  | cons i rest ih =>
    have hi := h i (List.mem_cons_self _ _)
    have hrest := ih (fun j hj => h j (List.mem_cons_of_mem _ hj))
    simp [collect_responses, hi, hrest]

theorem collect_err (t : Table) (sid : String) (l : List HITL.EngInterrupt)
    (h : ∃ i ∈ l, ¬ HITL.truthy (get_approval_response t sid i.id)) :
    ∃ j ∈ l, ¬ HITL.truthy (get_approval_response t sid j.id) ∧
      collect_responses t sid l = .error j := by
  induction l with
  | nil => simp at h
  | cons i rest ih =>
    by_cases hi : HITL.truthy (get_approval_response t sid i.id)
    · obtain ⟨k, hk, hkf⟩ := h
      rcases List.mem_cons.mp hk with rfl | hkrest
      · exact absurd hi hkf
      · obtain ⟨j, hj, hjf, hjc⟩ := ih ⟨k, hkrest, hkf⟩
        exact ⟨j, List.mem_cons_of_mem _ hj, hjf, by simp [collect_responses, hi, hjc]⟩
    · exact ⟨i, List.mem_cons_self _ _, hi, by simp [collect_responses, hi]⟩

theorem build_pre_all_answered (t : Table) (sid : String) (l : List SavedInterrupt)
    (h : ∀ i ∈ l, HITL.truthy (get_approval_response t sid i.id)) :
    ∀ (pre : HITL.Dict) (pending : List SavedInterrupt),
      (build_pre t sid l pre pending).2 = pending := by
  induction l with
  | nil => intro pre pending; rfl
  | cons i rest ih =>
    intro pre pending
    have hi := h i (List.mem_cons_self _ _)
    have hr := fun j hj => h j (List.mem_cons_of_mem _ hj)
    cases htool : i.reason.tool? with
    | none => simp [build_pre, hi, htool, ih hr]
    | some tn =>
      by_cases htn : HITL.truthyStr tn
      · simp [build_pre, hi, htool, htn, ih hr]
      · simp [build_pre, hi, htool, htn, ih hr]

theorem build_pre_pending (t : Table) (sid : String) (l : List SavedInterrupt) :
    ∀ (pre : HITL.Dict) (pending : List SavedInterrupt),
      (build_pre t sid l pre pending).2
        = pending ++ l.filter
            (fun i => !(HITL.truthy (get_approval_response t sid i.id))) := by
  induction l with
  | nil => intro pre pending; simp [build_pre]
  | cons i rest ih =>
    intro pre pending
    cases hi : HITL.truthy (get_approval_response t sid i.id) with
    | true =>
      cases htool : i.reason.tool? with
      | none => simp [build_pre, hi, htool, ih]
      | some tn =>
        by_cases htn : HITL.truthyStr tn
        · simp [build_pre, hi, htool, htn, ih]
        · simp [build_pre, hi, htool, htn, ih]
    | false => simp [build_pre, hi, ih, List.filter_cons]

theorem mem_dictInsert {d : HITL.Dict} {k0 v0 : String} {kv : String × String}
    (h : kv ∈ HITL.dictInsert d k0 v0) : kv ∈ d ∨ (kv.1 = k0 ∧ kv.2 = v0) := by
  unfold HITL.dictInsert at h
  by_cases hany : d.any (fun p => p.1 == k0)
  · rw [if_pos hany] at h
    obtain ⟨p, hp, hpe⟩ := List.mem_map.mp h
    by_cases hpk : (p.1 == k0) = true
    · rw [if_pos hpk] at hpe
      right
      rw [← hpe]
      exact ⟨rfl, rfl⟩
    · rw [if_neg hpk] at hpe
      left
      rw [← hpe]
      exact hp
  · rw [if_neg hany] at h
    rcases List.mem_append.mp h with h1 | h2
    · exact .inl h1
    · right
      have : kv = (k0, v0) := by simpa using h2
      rw [this]
      exact ⟨rfl, rfl⟩

theorem build_pre_mem (t : Table) (sid : String) (l : List SavedInterrupt) :
    ∀ (pre : HITL.Dict) (pending : List SavedInterrupt) (kv : String × String),
      kv ∈ (build_pre t sid l pre pending).1 →
      kv ∈ pre ∨ ∃ i ∈ l, i.reason.tool? = some kv.1 ∧
        get_approval_response t sid i.id = some kv.2 := by
  induction l with
  | nil => intro pre pending kv h; exact .inl h
  | cons i rest ih =>
    intro pre pending kv h
    cases hi : HITL.truthy (get_approval_response t sid i.id) with
    | false =>
      simp only [build_pre, hi, Bool.false_eq_true, if_false] at h
      rcases ih _ _ _ h with h1 | ⟨j, hj, hjt, hjr⟩
      · exact .inl h1
      · exact .inr ⟨j, List.mem_cons_of_mem _ hj, hjt, hjr⟩
    | true =>
      simp only [build_pre, hi, if_true] at h
      cases htool : i.reason.tool? with
      | none =>
        simp only [htool] at h
        rcases ih _ _ _ h with h1 | ⟨j, hj, hjt, hjr⟩
        · exact .inl h1
        · exact .inr ⟨j, List.mem_cons_of_mem _ hj, hjt, hjr⟩
      | some tn =>
        simp only [htool] at h
        by_cases htn : HITL.truthyStr tn
        · rw [if_pos htn] at h
          rcases ih _ _ _ h with h1 | ⟨j, hj, hjt, hjr⟩
          · rcases mem_dictInsert h1 with h2 | ⟨hk, hv⟩
            · exact .inl h2
            · refine .inr ⟨i, List.mem_cons_self _ _, by rw [htool, hk], ?_⟩
              cases hresp : get_approval_response t sid i.id with
              | none => rw [hresp] at hi; simp [HITL.truthy] at hi
              | some s => simp [hv, hresp]
          · exact .inr ⟨j, List.mem_cons_of_mem _ hj, hjt, hjr⟩
        · rw [if_neg htn] at h
          rcases ih _ _ _ h with h1 | ⟨j, hj, hjt, hjr⟩
          · exact .inl h1
          · exact .inr ⟨j, List.mem_cons_of_mem _ hj, hjt, hjr⟩

end Agent

namespace MemAgent

theorem lookupP_setP (pend : PendMap) (sid : String) (l : List MemApproval) :
    lookupP (setP pend sid l) sid = some l := by
  simp [lookupP, setP, List.find?_cons_of_pos]

theorem updateFirst_eq_none (l : List MemApproval) (iid : String)
    (f : MemApproval → MemApproval) :
    updateFirstApproval l iid f = none ↔
      l.find? (fun a => a.interrupt_id == iid) = none := by
  induction l with
  | nil => simp [updateFirstApproval]
  | cons a rest ih =>
    cases ha : (a.interrupt_id == iid) with
    | true => simp [updateFirstApproval, List.find?_cons, ha]
    | false => simp [updateFirstApproval, List.find?_cons, ha, Option.map_eq_none', ih]

theorem updateFirst_found (l : List MemApproval) (iid : String)
    (f : MemApproval → MemApproval) (hf : ∀ a, (f a).interrupt_id = a.interrupt_id)
    (a0 : MemApproval) (h : l.find? (fun a => a.interrupt_id == iid) = some a0) :
    ∃ l2, updateFirstApproval l iid f = some l2 ∧
      l2.find? (fun a => a.interrupt_id == iid) = some (f a0) := by
  induction l with
  | nil => simp at h
  | cons a rest ih =>
    rw [List.find?_cons] at h
    cases ha : (a.interrupt_id == iid) with
    | true =>
      simp only [ha] at h
      obtain rfl := Option.some.inj h
      exact ⟨f a :: rest, by simp [updateFirstApproval, ha],
        by simp [List.find?_cons, hf, ha]⟩
    | false =>
      simp only [ha] at h
      obtain ⟨l2, hl2, hfind⟩ := ih h
      refine ⟨a :: l2, by simp [updateFirstApproval, ha, hl2], ?_⟩
      rw [List.find?_cons]
      simp only [ha]
      exact hfind

theorem updateFirst_found_terminal (l : List MemApproval) (iid : String)
    (f : MemApproval → MemApproval) (hf : ∀ a, (f a).interrupt_id = a.interrupt_id)
    (hterm : ∀ a, (f a).status = "approved" ∨ (f a).status = "rejected")
    (a0 : MemApproval) (h : l.find? (fun a => a.interrupt_id == iid) = some a0) :
    ∃ l2, updateFirstApproval l iid f = some l2 ∧
      l2.find? (fun a => a.interrupt_id == iid &&
        (a.status == "approved" || a.status == "rejected")) = some (f a0) := by
  induction l with
  | nil => simp at h
  | cons a rest ih =>
    rw [List.find?_cons] at h
    cases ha : (a.interrupt_id == iid) with
    | true =>
      simp only [ha] at h
      obtain rfl := Option.some.inj h
      refine ⟨f a :: rest, by simp [updateFirstApproval, ha], ?_⟩
      rcases hterm a with h1 | h1 <;> simp [List.find?_cons, hf, ha, h1]
    | false =>
      simp only [ha] at h
      obtain ⟨l2, hl2, hfind⟩ := ih h
      refine ⟨a :: l2, by simp [updateFirstApproval, ha, hl2], ?_⟩
      rw [List.find?_cons]
      simp only [ha, Bool.false_and]
      exact hfind

theorem collect_ok_m (pend : PendMap) (sid : String) (l : List HITL.EngInterrupt)
    (h : ∀ i ∈ l, HITL.truthy (mem_approval_response pend sid i.id)) :
    collect_responses pend sid l =
      .ok (l.map (fun i => (i.id, (mem_approval_response pend sid i.id).getD ""))) := by
  induction l with
  | nil => rfl
  | cons i rest ih =>
    have hi := h i (List.mem_cons_self _ _)
    have hrest := ih (fun j hj => h j (List.mem_cons_of_mem _ hj))
    simp [collect_responses, hi, hrest]

theorem collect_err_m (pend : PendMap) (sid : String) (l : List HITL.EngInterrupt)
    (h : ∃ i ∈ l, ¬ HITL.truthy (mem_approval_response pend sid i.id)) :
    ∃ j ∈ l, ¬ HITL.truthy (mem_approval_response pend sid j.id) ∧
      collect_responses pend sid l = .error j := by
  induction l with
  | nil => simp at h
  | cons i rest ih =>
    by_cases hi : HITL.truthy (mem_approval_response pend sid i.id)
    · obtain ⟨k, hk, hkf⟩ := h
      rcases List.mem_cons.mp hk with rfl | hkrest
      · exact absurd hi hkf
      · obtain ⟨j, hj, hjf, hjc⟩ := ih ⟨k, hkrest, hkf⟩
        exact ⟨j, List.mem_cons_of_mem _ hj, hjf, by simp [collect_responses, hi, hjc]⟩
    · exact ⟨i, List.mem_cons_self _ _, hi, by simp [collect_responses, hi]⟩

end MemAgent

end HITL

/-! Claims. -/

/-- C3, counterexample.  The claim reads the answer literals exactly: any
answer other than "y" or "t" must deny the occurrence.  The answer "T" is
neither "y" nor "t", yet the gate (here reached through the pre-approved
answer map; the live-answer block is the same code) marks the tool trusted
and lets it proceed instead of cancelling it. -/
theorem C3_counterexample :
    ("T" ≠ "y" ∧ "T" ≠ "t") ∧
    HITL.approve_hook "hitl-demo" [("delete_files", "T")] [] "delete_files" "x" =
      ([("hitl-demo-delete_files-trust", "trusted")], .proceed) ∧
    HITL.process_approval [] "hitl-demo" "delete_files" "T" =
      ([("hitl-demo-delete_files-trust", "trusted")], .proceed) := by
  refine ⟨⟨by decide, by decide⟩, by decide, by decide⟩

/-- C3 as amended: the gate compares the answer after lowercasing.  An answer
lowering to "t" marks (scope, op) trusted and allows; an answer lowering to
neither "t" nor "y" denies exactly that occurrence by cancelling the tool
with a message naming the operation; an answer lowering to "y" allows that
occurrence without marking trust.  The same block handles an answer drawn
from the pre-approved map, which behaves exactly like a live answer. -/
theorem C3_amended (st : HITL.KV) (app_name tool_name ans : String) :
    (HITL.pyLower ans = "t" →
      HITL.process_approval st app_name tool_name ans =
        (HITL.kvSet st (HITL.trust_key app_name tool_name) "trusted", .proceed)) ∧
    (HITL.pyLower ans ≠ "t" → HITL.pyLower ans ≠ "y" →
      HITL.process_approval st app_name tool_name ans =
        (st, .deny (HITL.deny_msg tool_name))) ∧
    (HITL.pyLower ans ≠ "t" → HITL.pyLower ans = "y" →
      HITL.process_approval st app_name tool_name ans = (st, .proceed)) ∧
    (∀ (pre : HITL.Dict) (inp : String), tool_name ∈ HITL.DANGEROUS_TOOLS →
      HITL.kvGet st (HITL.trust_key app_name tool_name) ≠ some "trusted" →
      HITL.dictGet pre tool_name = some ans →
      HITL.approve_hook app_name pre st tool_name inp =
        HITL.process_approval st app_name tool_name ans) := by
  refine ⟨fun h => ?_, fun h1 h2 => ?_, fun h1 h2 => ?_, fun pre inp hd htr hpre => ?_⟩
  · unfold HITL.process_approval
    rw [if_pos h]
  · unfold HITL.process_approval
    rw [if_neg h1, if_pos h2]
  · unfold HITL.process_approval
    rw [if_neg h1, if_neg (by rw [h2]; exact fun hc => hc rfl)]
  · unfold HITL.approve_hook HITL.process_approval
    rw [if_pos hd, if_neg htr, hpre]

/-- C3 amended, witness: the answer "N" lowers to neither "t" nor "y" and is
denied with a message naming delete_files. -/
theorem C3_amended_witness :
    (HITL.pyLower "N" ≠ "t" ∧ HITL.pyLower "N" ≠ "y") ∧
    HITL.process_approval [] "hitl-demo" "delete_files" "N" =
      ([], .deny (HITL.deny_msg "delete_files")) :=
  ⟨⟨by decide, by decide⟩,
   (C3_amended [] "hitl-demo" "delete_files" "N").2.1 (by decide) (by decide)⟩

/-- C7: an operation name outside the configured risky set makes the gate
return immediately, leaving the trust cache unchanged, for every trust cache
and every pre-approved answer map alike — so the decision neither reads nor
writes trust state, never consults the pre-approved map, and never suspends;
the operation always proceeds.  Instantiating `pre := []` gives the
memory-only module's hook, which is this function without the pre-approval
branch. -/
theorem C7_theorem (app_name : String) (pre : HITL.Dict) (st : HITL.KV)
    (tool_name inp : String) (h : tool_name ∉ HITL.DANGEROUS_TOOLS) :
    HITL.approve_hook app_name pre st tool_name inp = (st, .proceed) := by
  unfold HITL.approve_hook
  rw [if_neg h]

/-- C7, witness: list_files is not a dangerous tool and proceeds ungated even
with a populated trust cache and pre-approved map. -/
theorem C7_witness :
    ("list_files" ∉ HITL.DANGEROUS_TOOLS) ∧
    HITL.approve_hook "hitl-demo" [("delete_files", "n")] [("k", "v")]
      "list_files" "x" = ([("k", "v")], .proceed) :=
  ⟨by decide,
   C7_theorem "hitl-demo" [("delete_files", "n")] [("k", "v")] "list_files" "x" (by decide)⟩

/-- C9: answer comparison is case-insensitive — any answer whose lowercasing
is "t" marks the tool trusted and allows it, and any answer whose lowercasing
is "y" allows it once without marking trust. -/
theorem C9_theorem (st : HITL.KV) (app_name tool_name s : String) :
    (HITL.pyLower s = "t" →
      HITL.process_approval st app_name tool_name s =
        (HITL.kvSet st (HITL.trust_key app_name tool_name) "trusted", .proceed)) ∧
    (HITL.pyLower s = "y" →
      HITL.process_approval st app_name tool_name s = (st, .proceed)) := by
  constructor
  · intro h
    unfold HITL.process_approval
    rw [if_pos h]
  · intro h
    unfold HITL.process_approval
    rw [h]
    rw [if_neg (by decide : ¬ ("y" : String) = "t")]
    rw [if_neg (by decide : ¬ ("y" : String) ≠ "y")]

/-- C9, witness: the uppercase answers "T" and "Y" behave as trust and as
single approval respectively. -/
theorem C9_witness :
    (HITL.pyLower "T" = "t" ∧
      HITL.process_approval [] "hitl-demo" "delete_files" "T" =
        (HITL.kvSet [] (HITL.trust_key "hitl-demo" "delete_files") "trusted", .proceed)) ∧
    (HITL.pyLower "Y" = "y" ∧
      HITL.process_approval [] "hitl-demo" "delete_files" "Y" = ([], .proceed)) :=
  ⟨⟨by decide, (C9_theorem [] "hitl-demo" "delete_files" "T").1 (by decide)⟩,
   ⟨by decide, (C9_theorem [] "hitl-demo" "delete_files" "Y").2 (by decide)⟩⟩

/-- C5: in memory-only mode, both background runs (initial and resumed)
report completion to the host exactly when the engine outcome is not a
suspension — after a suspension complete_async_task is never called, keeping
the process HealthyBusy; in durable (DynamoDB) mode, every background run
reports completion unconditionally, suspension included. -/
theorem C5_theorem :
    (∀ (mem : HITL.MemAgent.MMem) (pend : HITL.MemAgent.PendMap)
       (sid prompt tid : String) (o : HITL.EngineOutcome),
       (HITL.MemAgent.start_finish mem pend sid prompt tid o).2.2 = !o.isInterrupt) ∧
    (∀ (mem : HITL.MemAgent.MMem) (pend : HITL.MemAgent.PendMap)
       (sid prompt tid : String) (o : HITL.EngineOutcome),
       (HITL.MemAgent.resume_finish mem pend sid prompt tid o).2.2 = !o.isInterrupt) ∧
    (∀ (t : HITL.Agent.Table) (mem : HITL.Agent.DMem) (sid prompt : String)
       (o : HITL.EngineOutcome),
       (HITL.Agent.start_finish t mem sid prompt o).2.2 = true) ∧
    (∀ (t : HITL.Agent.Table) (mem : HITL.Agent.DMem) (sid prompt : String)
       (o : HITL.EngineOutcome),
       (HITL.Agent.cold_resume_finish t mem sid prompt o).2.2 = true) ∧
    (∀ (t : HITL.Agent.Table) (mem : HITL.Agent.DMem) (sid : String)
       (o : HITL.EngineOutcome),
       (HITL.Agent.fast_resume_finish t mem sid o).2.2 = true) := by
  refine ⟨?_, ?_, ?_, ?_, ?_⟩
  · intro mem pend sid prompt tid o
    cases o with
    | result r =>
      cases hb : (r.stop_reason == "interrupt") <;>
        simp [HITL.MemAgent.start_finish, HITL.EngineOutcome.isInterrupt, hb]
    | exn e => simp [HITL.MemAgent.start_finish, HITL.EngineOutcome.isInterrupt]
  · intro mem pend sid prompt tid o
    cases o with
    | result r =>
      cases hb : (r.stop_reason == "interrupt") <;>
        simp [HITL.MemAgent.resume_finish, HITL.EngineOutcome.isInterrupt, hb]
    | exn e => simp [HITL.MemAgent.resume_finish, HITL.EngineOutcome.isInterrupt]
  · intro t mem sid prompt o
    cases o with
    | result r =>
      cases hb : (r.stop_reason == "interrupt") <;> simp [HITL.Agent.start_finish, hb]
    | exn e => simp [HITL.Agent.start_finish]
  · intro t mem sid prompt o
    cases o with
    | result r =>
      cases hb : (r.stop_reason == "interrupt") <;> simp [HITL.Agent.cold_resume_finish, hb]
    | exn e => simp [HITL.Agent.cold_resume_finish]
  · intro t mem sid o
    cases o with
    | result r =>
      cases hb : (r.stop_reason == "interrupt") <;> simp [HITL.Agent.fast_resume_finish, hb]
    | exn e => simp [HITL.Agent.fast_resume_finish]

/-- C1, counterexample.  The claim requires approve/reject to fail on an
absent record and on an already-terminal record, never overwriting.  In
memory mode a second approve on the already-approved interrupt i1 succeeds
and overwrites the stored response and approver; in DynamoDB mode an approve
whose key has no record at all succeeds and creates one. -/
theorem C1_counterexample :
    ((HITL.MemAgent.findApproval HITL.Fx.pend1 "s1" "i1").map (fun a => a.status)
        = some "approved") ∧
    ((HITL.MemAgent.findApproval HITL.Fx.pend1 "s1" "i1").map (fun a => a.response)
        = some (some "y")) ∧
    HITL.Fx.call2.1 = .approvedR "s1" "i1" "n" ∧
    ((HITL.MemAgent.findApproval HITL.Fx.call2.2 "s1" "i1").map (fun a => a.response)
        = some (some "n")) ∧
    ((HITL.MemAgent.findApproval HITL.Fx.call2.2 "s1" "i1").map (fun a => a.approver)
        = some (some "bob")) ∧
    (HITL.Agent.approve_request [] "s1" ⟨some "i9", some "y", none⟩).1
        = .approvedR "s1" "i9" "y" ∧
    HITL.Agent.getItem (HITL.Agent.approve_request [] "s1" ⟨some "i9", some "y", none⟩).2
        "s1" "i9" ≠ none := by
  decide

/-- C1 as amended: in DynamoDB mode, approve (and likewise reject) never
fails for a well-formed interrupt_id — the update is an unconditional upsert
that creates an absent record and overwrites status, response and approver
whatever the prior status was.  In memory mode the call fails exactly when no
record with that interrupt_id exists, and otherwise overwrites status,
response and approver regardless of the prior status (terminal included). -/
theorem C1_amended :
    (∀ (t : HITL.Agent.Table) (sid iid resp appr : String), HITL.truthyStr iid →
      (HITL.Agent.approve_request t sid ⟨some iid, some resp, some appr⟩).1
        = .approvedR sid iid resp ∧
      ∃ it, HITL.Agent.getItem
          (HITL.Agent.approve_request t sid ⟨some iid, some resp, some appr⟩).2 sid iid
        = some it ∧ it.status = "approved" ∧ it.response = some resp ∧
        it.approver = some appr) ∧
    (∀ (pend : HITL.MemAgent.PendMap) (sid iid resp appr : String), HITL.truthyStr iid →
      (HITL.MemAgent.findApproval pend sid iid = none →
        HITL.MemAgent.approve_request pend sid ⟨some iid, some resp, some appr⟩
          = (.errorR ("Approval not found: " ++ iid), pend)) ∧
      (∀ a0, HITL.MemAgent.findApproval pend sid iid = some a0 →
        (HITL.MemAgent.approve_request pend sid ⟨some iid, some resp, some appr⟩).1
          = .approvedR sid iid resp ∧
        HITL.MemAgent.findApproval
            (HITL.MemAgent.approve_request pend sid ⟨some iid, some resp, some appr⟩).2
            sid iid
          = some { a0 with status := "approved", response := some resp,
                           approver := some appr })) := by
  constructor
  · intro t sid iid resp appr hiid
    constructor
    · simp [HITL.Agent.approve_request, hiid]
    · obtain ⟨it, hit, h1, h2, h3⟩ :=
        HITL.Agent.getItem_update t sid iid "approved" resp appr
      refine ⟨it, ?_, h1, h2, h3⟩
      have hsnd : (HITL.Agent.approve_request t sid ⟨some iid, some resp, some appr⟩).2
          = HITL.Agent.update_approval_status t sid iid "approved" resp appr := by
        simp [HITL.Agent.approve_request, hiid]
      rw [hsnd]
      exact hit
  · intro pend sid iid resp appr hiid
    constructor
    · intro hnone
      have hupd := (HITL.MemAgent.updateFirst_eq_none
        ((HITL.MemAgent.lookupP pend sid).getD []) iid
        (fun a => { a with status := "approved", response := some resp,
                           approver := some appr })).mpr hnone
      simp [HITL.MemAgent.approve_request, hiid, hupd]
    · intro a0 hfound
      obtain ⟨l2, hl2, hfind⟩ := HITL.MemAgent.updateFirst_found
        ((HITL.MemAgent.lookupP pend sid).getD []) iid
        (fun a => { a with status := "approved", response := some resp,
                           approver := some appr })
        (fun a => rfl) a0 hfound
      constructor
      · simp [HITL.MemAgent.approve_request, hiid, hl2]
      · have hsnd : (HITL.MemAgent.approve_request pend sid
            ⟨some iid, some resp, some appr⟩).2 = HITL.MemAgent.setP pend sid l2 := by
          simp [HITL.MemAgent.approve_request, hiid, hl2]
        rw [hsnd]
        unfold HITL.MemAgent.findApproval
        rw [HITL.MemAgent.lookupP_setP, Option.getD_some]
        exact hfind

/-- C1 amended, witness: approving the pending interrupt i1 of the fixture
map succeeds. -/
theorem C1_amended_witness :
    (HITL.truthyStr "i1" = true ∧
     HITL.MemAgent.findApproval HITL.Fx.pend0 "s1" "i1"
       = some (HITL.MemAgent.mkPending "s1" ⟨"i1", "nm", HITL.Fx.r1⟩)) ∧
    (HITL.MemAgent.approve_request HITL.Fx.pend0 "s1" ⟨some "i1", some "y", some "alice"⟩).1
      = .approvedR "s1" "i1" "y" :=
  ⟨⟨by decide, by decide⟩,
   ((C1_amended.2 HITL.Fx.pend0 "s1" "i1" "y" "alice" (by decide)).2
     (HITL.MemAgent.mkPending "s1" ⟨"i1", "nm", HITL.Fx.r1⟩) (by decide)).1⟩

/-- C2, counterexample.  The suspension of s1 holds i1 (terminal approval
whose recorded response is the empty string) and i2 (still pending, hence
unanswered).  Resume does fail without re-entering the engine, but the error
identifies i1 — an interrupt that has a terminal PendingApproval — rather
than the unanswered i2, because the code tests Python truthiness of the
recorded response, not terminality of the record. -/
theorem C2_counterexample :
    ((HITL.Agent.getItem HITL.Fx.t2 "s1" "i2").map (fun it => it.status)
        = some "pending") ∧
    HITL.Agent.resume_agent_task HITL.Fx.mem2 HITL.Fx.t2 "s1" "task-1"
        = (.errApprovalMissing HITL.Fx.I1, none) ∧
    ((HITL.Agent.getItem HITL.Fx.t2 "s1" "i1").map (fun it => it.status)
        = some "approved") ∧
    HITL.Fx.I1.id ≠ "i2" := by
  decide

/-- C2 as amended: resume never re-enters the engine while some interrupt of
the active suspension lacks a terminal approval with a non-empty recorded
response.  Fast path (both modes): the call fails naming the first interrupt
whose recorded answer is falsy — possibly a terminal approval with empty
response rather than a truly unanswered one — and when every interrupt has a
terminal non-empty answer it re-enters the same engine with the full
per-interrupt-id answer list, never a subset.  Cold path: the call fails
listing exactly the interrupts whose recorded answers are falsy; when all are
answered it still fails (without re-entering) if the saved prompt is empty,
and otherwise re-enters by re-running the original prompt with the answers
re-keyed by operation name (the build_pre map, which omits answers whose
reasons lack a truthy tool name and merges duplicate names — not a
per-interrupt answer list). -/
theorem C2_amended :
    (∀ (t : HITL.Agent.Table) (mem : HITL.Agent.DMem) (sid task_id : String)
       (l : List HITL.EngInterrupt),
      HITL.Agent.lookupD mem sid = some (.waiting l) →
      ((∃ i ∈ l, ¬ HITL.truthy (HITL.Agent.get_approval_response t sid i.id)) →
        ∃ j ∈ l, ¬ HITL.truthy (HITL.Agent.get_approval_response t sid j.id) ∧
          HITL.Agent.resume_agent_task mem t sid task_id
            = (.errApprovalMissing j, none)) ∧
      ((∀ i ∈ l, HITL.truthy (HITL.Agent.get_approval_response t sid i.id)) →
        HITL.Agent.resume_agent_task mem t sid task_id
          = (.resuming sid task_id none,
             some (.fastResume (l.map (fun i =>
               (i.id, (HITL.Agent.get_approval_response t sid i.id).getD ""))))))) ∧
    (∀ (mem : HITL.MemAgent.MMem) (pend : HITL.MemAgent.PendMap)
       (sid prompt tid : String) (l : List HITL.EngInterrupt),
      HITL.MemAgent.lookupM mem sid = some (.waiting l prompt (some tid)) →
      ((∃ i ∈ l, ¬ HITL.truthy (HITL.MemAgent.mem_approval_response pend sid i.id)) →
        ∃ j ∈ l, ¬ HITL.truthy (HITL.MemAgent.mem_approval_response pend sid j.id) ∧
          HITL.MemAgent.resume_agent_task mem pend sid
            = (.errApprovalMissing j.id j.name, none)) ∧
      ((∀ i ∈ l, HITL.truthy (HITL.MemAgent.mem_approval_response pend sid i.id)) →
        HITL.MemAgent.resume_agent_task mem pend sid
          = (.resuming sid tid,
             some (l.map (fun i =>
               (i.id, (HITL.MemAgent.mem_approval_response pend sid i.id).getD "")))))) ∧
    (∀ (t : HITL.Agent.Table) (mem : HITL.Agent.DMem) (sid task_id prompt : String)
       (l : List HITL.Agent.SavedInterrupt),
      HITL.Agent.lookupD mem sid = none →
      HITL.Agent.get_agent_state t sid = some ⟨prompt, l⟩ →
      ((∃ i ∈ l, ¬ HITL.truthy (HITL.Agent.get_approval_response t sid i.id)) →
        HITL.Agent.resume_agent_task mem t sid task_id
          = (.errNotAllAnswered (l.filter (fun i =>
              !(HITL.truthy (HITL.Agent.get_approval_response t sid i.id)))), none) ∧
        l.filter (fun i =>
          !(HITL.truthy (HITL.Agent.get_approval_response t sid i.id))) ≠ []) ∧
      ((∀ i ∈ l, HITL.truthy (HITL.Agent.get_approval_response t sid i.id)) →
        (HITL.truthyStr prompt = false →
          HITL.Agent.resume_agent_task mem t sid task_id = (.errNoPrompt, none)) ∧
        (HITL.truthyStr prompt = true →
          HITL.Agent.resume_agent_task mem t sid task_id
            = (.resuming sid task_id
                 (some (HITL.dictKeys (HITL.Agent.build_pre t sid l [] []).1)),
               some (.coldResume prompt (HITL.Agent.build_pre t sid l [] []).1))))) := by
  refine ⟨?_, ?_, ?_⟩
  · intro t mem sid task_id l hmem
    constructor
    · intro hex
      obtain ⟨j, hj, hjf, hjc⟩ := HITL.Agent.collect_err t sid l hex
      exact ⟨j, hj, hjf, by simp [HITL.Agent.resume_agent_task, hmem, hjc]⟩
    · intro hall
      have hok := HITL.Agent.collect_ok t sid l hall
      simp [HITL.Agent.resume_agent_task, hmem, hok]
  · intro mem pend sid prompt tid l hmem
    constructor
    · intro hex
      obtain ⟨j, hj, hjf, hjc⟩ := HITL.MemAgent.collect_err_m pend sid l hex
      exact ⟨j, hj, hjf, by simp [HITL.MemAgent.resume_agent_task, hmem, hjc]⟩
    · intro hall
      have hok := HITL.MemAgent.collect_ok_m pend sid l hall
      simp [HITL.MemAgent.resume_agent_task, hmem, hok]
  · intro t mem sid task_id prompt l h0 h1
    constructor
    · intro hex
      have hpend := HITL.Agent.build_pre_pending t sid l [] []
      have hmemf : ∃ i, i ∈ l.filter (fun i =>
          !(HITL.truthy (HITL.Agent.get_approval_response t sid i.id))) := by
        obtain ⟨i, hi, hif⟩ := hex
        exact ⟨i, List.mem_filter.mpr ⟨hi, by simpa using hif⟩⟩
      obtain ⟨a, ha⟩ := hmemf
      have hne := List.ne_nil_of_mem ha
      obtain ⟨b, bs, hcons⟩ := List.exists_cons_of_ne_nil hne
      refine ⟨?_, hne⟩
      simp [HITL.Agent.resume_agent_task, h0, h1, hpend, hcons]
    · intro hall
      have hpend := HITL.Agent.build_pre_all_answered t sid l hall [] []
      constructor
      · intro hprompt
        simp [HITL.Agent.resume_agent_task, h0, h1, hpend, hprompt]
      · intro hprompt
        simp [HITL.Agent.resume_agent_task, h0, h1, hpend, hprompt]

/-- C2 amended, witness: on the two-interrupt fixture the fast path fails
naming an interrupt without a terminal non-empty answer and launches no
engine call; after a restart the cold path on the same session fails listing
exactly the interrupts the code finds unanswered, again launching nothing. -/
theorem C2_amended_witness :
    (HITL.Agent.lookupD HITL.Fx.mem2 "s1" = some (.waiting [HITL.Fx.I1, HITL.Fx.I2]) ∧
     (∃ j ∈ [HITL.Fx.I1, HITL.Fx.I2],
       ¬ HITL.truthy (HITL.Agent.get_approval_response HITL.Fx.t2 "s1" j.id) ∧
       HITL.Agent.resume_agent_task HITL.Fx.mem2 HITL.Fx.t2 "s1" "task-1"
         = (.errApprovalMissing j, none))) ∧
    ((HITL.Agent.lookupD [] "s1" = none ∧
      HITL.Agent.get_agent_state HITL.Fx.t2c "s1" = some ⟨"go", [HITL.Fx.S1, HITL.Fx.S2]⟩ ∧
      (∃ i ∈ [HITL.Fx.S1, HITL.Fx.S2],
        ¬ HITL.truthy (HITL.Agent.get_approval_response HITL.Fx.t2c "s1" i.id))) ∧
     (HITL.Agent.resume_agent_task [] HITL.Fx.t2c "s1" "task-2"
        = (.errNotAllAnswered ([HITL.Fx.S1, HITL.Fx.S2].filter (fun i =>
            !(HITL.truthy (HITL.Agent.get_approval_response HITL.Fx.t2c "s1" i.id)))),
           none) ∧
      [HITL.Fx.S1, HITL.Fx.S2].filter (fun i =>
        !(HITL.truthy (HITL.Agent.get_approval_response HITL.Fx.t2c "s1" i.id))) ≠ [])) :=
  ⟨⟨by decide,
    (C2_amended.1 HITL.Fx.t2 HITL.Fx.mem2 "s1" "task-1" [HITL.Fx.I1, HITL.Fx.I2]
      (by decide)).1 (by decide)⟩,
   ⟨⟨rfl, by decide, by decide⟩,
    (C2_amended.2.2 HITL.Fx.t2c [] "s1" "task-2" "go" [HITL.Fx.S1, HITL.Fx.S2]
      rfl (by decide)).1 (by decide)⟩⟩

/-- C4: on every resume — fast path (cached session) and cold path
(reconstruction from durable state) in DynamoDB mode, and the only (cached)
path of memory mode — if the target session does not currently count as
awaiting approval (cached status other than waiting_approval, or, with no
cached session, no durable ResumableState, which get_status reports as
"interrupted"), the call returns a usage error and launches no resumption. -/
theorem C4_theorem :
    (∀ (mem : HITL.Agent.DMem) (t : HITL.Agent.Table) (sid task_id : String),
      HITL.Agent.status_waiting mem t sid = false →
      (HITL.Agent.resume_agent_task mem t sid task_id).1.isError = true ∧
      (HITL.Agent.resume_agent_task mem t sid task_id).2 = none) ∧
    (∀ (mem : HITL.MemAgent.MMem) (pend : HITL.MemAgent.PendMap) (sid : String),
      HITL.MemAgent.status_waiting mem sid = false →
      (HITL.MemAgent.resume_agent_task mem pend sid).1.isError = true ∧
      (HITL.MemAgent.resume_agent_task mem pend sid).2 = none) := by
  constructor
  · intro mem t sid task_id h
    cases hmem : HITL.Agent.lookupD mem sid with
    | none =>
      cases hst : HITL.Agent.get_agent_state t sid with
      | none =>
        constructor <;>
          simp [HITL.Agent.resume_agent_task, hmem, hst, HITL.Agent.DResumeReply.isError]
      | some saved =>
        exfalso
        simp [HITL.Agent.status_waiting, HITL.Agent.get_status, hmem, hst] at h
    | some st =>
      cases st with
      | waiting l =>
        exfalso
        simp [HITL.Agent.status_waiting, HITL.Agent.get_status, hmem,
              HITL.Agent.DSessState.statusStr] at h
      | completed m =>
        constructor <;>
          simp [HITL.Agent.resume_agent_task, hmem, HITL.Agent.DResumeReply.isError,
                HITL.Agent.DSessState.statusStr]
      | errored e =>
        constructor <;>
          simp [HITL.Agent.resume_agent_task, hmem, HITL.Agent.DResumeReply.isError,
                HITL.Agent.DSessState.statusStr]
  · intro mem pend sid h
    cases hmem : HITL.MemAgent.lookupM mem sid with
    | none =>
      constructor <;>
        simp [HITL.MemAgent.resume_agent_task, hmem, HITL.MemAgent.MResumeReply.isError]
    | some st =>
      cases st with
      | waiting l p tid =>
        exfalso
        simp [HITL.MemAgent.status_waiting, HITL.MemAgent.get_status, hmem,
              HITL.MemAgent.MemSessState.statusStr] at h
      | completed m =>
        constructor <;>
          simp [HITL.MemAgent.resume_agent_task, hmem,
                HITL.MemAgent.MResumeReply.isError, HITL.MemAgent.MemSessState.statusStr]
      | errored e =>
        constructor <;>
          simp [HITL.MemAgent.resume_agent_task, hmem,
                HITL.MemAgent.MResumeReply.isError, HITL.MemAgent.MemSessState.statusStr]

/-- C4, witness: a completed cached session is not awaiting approval and its
resume is rejected without launching anything. -/
theorem C4_witness :
    HITL.Agent.status_waiting [("s1", .completed "ok")] [] "s1" = false ∧
    ((HITL.Agent.resume_agent_task [("s1", .completed "ok")] [] "s1" "task-1").1.isError
        = true ∧
     (HITL.Agent.resume_agent_task [("s1", .completed "ok")] [] "s1" "task-1").2 = none) :=
  ⟨by decide, C4_theorem.1 [("s1", .completed "ok")] [] "s1" "task-1" (by decide)⟩

/-- C6, counterexample.  A cold resumption of s1 reaches the terminal outcome
end_turn: the TaskResult is persisted, yet the ResumableState record is still
retrievable afterwards — nothing ever deletes it, contradicting the claim
that it is discarded once resumption succeeds. -/
theorem C6_counterexample :
    HITL.Agent.get_agent_state
        (HITL.Agent.cold_resume_finish HITL.Fx.t6 [] "s1" "delete tmp x"
          HITL.Fx.doneOutcome).1 "s1"
      = some HITL.Fx.st6 ∧
    HITL.Agent.get_agent_state
        (HITL.Agent.cold_resume_finish HITL.Fx.t6 [] "s1" "delete tmp x"
          HITL.Fx.doneOutcome).1 "s1"
      ≠ none ∧
    HITL.Agent.get_agent_result
        (HITL.Agent.cold_resume_finish HITL.Fx.t6 [] "s1" "delete tmp x"
          HITL.Fx.doneOutcome).1 "s1"
      = some (.ok "done" "end_turn") := by
  decide

/-- C6 as amended: the ResumableState record is never deleted.  When a
resumed run (cold or fast) reaches a terminal outcome — success or engine
failure — the record is left untouched and remains retrievable until TTL
expiry; it is overwritten (replaced) only when a cold-path resumed run
suspends again, while a fast-path re-suspension leaves even the stale record
in place. -/
theorem C6_amended (t : HITL.Agent.Table) (mem : HITL.Agent.DMem)
    (sid prompt e : String) (r : HITL.EngineResult) :
    (r.stop_reason ≠ "interrupt" →
      HITL.Agent.get_agent_state
          (HITL.Agent.cold_resume_finish t mem sid prompt (.result r)).1 sid
        = HITL.Agent.get_agent_state t sid ∧
      HITL.Agent.get_agent_state
          (HITL.Agent.fast_resume_finish t mem sid (.result r)).1 sid
        = HITL.Agent.get_agent_state t sid) ∧
    (HITL.Agent.get_agent_state
        (HITL.Agent.cold_resume_finish t mem sid prompt (.exn e)).1 sid
      = HITL.Agent.get_agent_state t sid) ∧
    (HITL.Agent.get_agent_state
        (HITL.Agent.fast_resume_finish t mem sid (.exn e)).1 sid
      = HITL.Agent.get_agent_state t sid) ∧
    (r.stop_reason = "interrupt" →
      HITL.Agent.get_agent_state
          (HITL.Agent.cold_resume_finish t mem sid prompt (.result r)).1 sid
        = some ⟨prompt, r.interrupts.map (fun i => ⟨i.id, i.name, i.reason⟩)⟩) ∧
    ((∀ i ∈ r.interrupts, i.id ≠ "__state__") → r.stop_reason = "interrupt" →
      HITL.Agent.get_agent_state
          (HITL.Agent.fast_resume_finish t mem sid (.result r)).1 sid
        = HITL.Agent.get_agent_state t sid) := by
  refine ⟨fun h => ?_, ?_, ?_, fun h => ?_, fun hids h => ?_⟩
  · have hb : (r.stop_reason == "interrupt") = false := by simp [h]
    constructor
    · simp [HITL.Agent.cold_resume_finish, hb, HITL.Agent.get_state_after_result]
    · simp [HITL.Agent.fast_resume_finish, hb, HITL.Agent.get_state_after_result]
  · simp [HITL.Agent.cold_resume_finish, HITL.Agent.get_state_after_result]
  · simp [HITL.Agent.fast_resume_finish, HITL.Agent.get_state_after_result]
  · have hb : (r.stop_reason == "interrupt") = true := by simp [h]
    simp only [HITL.Agent.cold_resume_finish, hb, if_true]
    exact HITL.Agent.get_state_after_save_state _ _ _
  · have hb : (r.stop_reason == "interrupt") = true := by simp [h]
    simp only [HITL.Agent.fast_resume_finish, hb, if_true]
    exact HITL.Agent.get_state_after_pendings sid sid r.interrupts hids t

/-- C6 amended, witness: a fast-path re-suspension on one interrupt leaves
the stale ResumableState of the fixture untouched. -/
theorem C6_amended_witness :
    ((∀ i ∈ HITL.Fx.intrResult.interrupts, i.id ≠ "__state__") ∧
      HITL.Fx.intrResult.stop_reason = "interrupt") ∧
    HITL.Agent.get_agent_state
        (HITL.Agent.fast_resume_finish HITL.Fx.t6 [] "s1"
          (.result HITL.Fx.intrResult)).1 "s1"
      = HITL.Agent.get_agent_state HITL.Fx.t6 "s1" :=
  ⟨⟨by decide, by decide⟩,
   (C6_amended HITL.Fx.t6 [] "s1" "p" "e" HITL.Fx.intrResult).2.2.2.2 (by decide) (by decide)⟩

/-- C8: on a cold-path resume (no cached TaskSession) whose saved suspension
is fully answered (every recorded response truthy) and whose saved prompt is
non-empty, the orchestrator answers with status resuming, the task id and
the operation-name list of the pre-approved map, and launches a cold
resumption that re-executes the original prompt on a fresh engine carrying
that map; every entry of the map is the operation name taken from some saved
interrupt's reason, mapped to that interrupt's recorded answer. -/
theorem C8_theorem (mem : HITL.Agent.DMem) (t : HITL.Agent.Table)
    (sid task_id prompt : String) (l : List HITL.Agent.SavedInterrupt)
    (h0 : HITL.Agent.lookupD mem sid = none)
    (h1 : HITL.Agent.get_agent_state t sid = some ⟨prompt, l⟩)
    (h2 : HITL.truthyStr prompt)
    (h3 : ∀ i ∈ l, HITL.truthy (HITL.Agent.get_approval_response t sid i.id)) :
    HITL.Agent.resume_agent_task mem t sid task_id
      = (.resuming sid task_id
           (some (HITL.dictKeys (HITL.Agent.build_pre t sid l [] []).1)),
         some (.coldResume prompt (HITL.Agent.build_pre t sid l [] []).1)) ∧
    ∀ kv ∈ (HITL.Agent.build_pre t sid l [] []).1,
      ∃ i ∈ l, i.reason.tool? = some kv.1 ∧
        HITL.Agent.get_approval_response t sid i.id = some kv.2 := by
  constructor
  · have hpend := HITL.Agent.build_pre_all_answered t sid l h3 [] []
    simp [HITL.Agent.resume_agent_task, h0, h1, hpend, h2]
  · intro kv hkv
    rcases HITL.Agent.build_pre_mem t sid l [] [] kv hkv with h | h
    · simp at h
    · exact h

/-- C8, witness: the single saved interrupt of the fixture was answered "t";
the cold path resumes, reporting delete_files as pre-approved. -/
theorem C8_witness :
    (HITL.Agent.lookupD [] "s1" = none ∧
     HITL.Agent.get_agent_state HITL.Fx.t8 "s1"
       = some ⟨"do it", [⟨"i1", "nm", HITL.Fx.r1⟩]⟩ ∧
     HITL.truthyStr "do it" = true ∧
     (∀ i ∈ [(⟨"i1", "nm", HITL.Fx.r1⟩ : HITL.Agent.SavedInterrupt)],
       HITL.truthy (HITL.Agent.get_approval_response HITL.Fx.t8 "s1" i.id))) ∧
    (HITL.Agent.resume_agent_task [] HITL.Fx.t8 "s1" "task-1"
      = (.resuming "s1" "task-1"
           (some (HITL.dictKeys
             (HITL.Agent.build_pre HITL.Fx.t8 "s1" [⟨"i1", "nm", HITL.Fx.r1⟩] [] []).1)),
         some (.coldResume "do it"
           (HITL.Agent.build_pre HITL.Fx.t8 "s1" [⟨"i1", "nm", HITL.Fx.r1⟩] [] []).1)) ∧
     ∀ kv ∈ (HITL.Agent.build_pre HITL.Fx.t8 "s1" [⟨"i1", "nm", HITL.Fx.r1⟩] [] []).1,
       ∃ i ∈ [(⟨"i1", "nm", HITL.Fx.r1⟩ : HITL.Agent.SavedInterrupt)],
         i.reason.tool? = some kv.1 ∧
         HITL.Agent.get_approval_response HITL.Fx.t8 "s1" i.id = some kv.2) :=
  ⟨⟨rfl, by decide, by decide, by decide⟩,
   C8_theorem [] HITL.Fx.t8 "s1" "task-1" "do it" [⟨"i1", "nm", HITL.Fx.r1⟩]
     rfl (by decide) (by decide) (by decide)⟩

/-- C10: rejecting stores the literal "n" as the response whatever reason the
caller supplies.  In DynamoDB mode the stored record is identical for any two
supplied reasons (the reason is only echoed in the reply), and afterwards the
answer lookup used by resume yields "n", which the gate turns into a denial
naming the operation.  In memory mode the record found by the resume lookup
likewise carries response "n" after a reject, and the reply echoes the
reason. -/
theorem C10_theorem :
    (∀ (t : HITL.Agent.Table) (sid iid rsn appr : String), HITL.truthyStr iid →
      (HITL.Agent.reject_request t sid ⟨some iid, some rsn, some appr⟩).1
        = .rejectedR sid iid rsn ∧
      HITL.Agent.get_approval_response
          (HITL.Agent.reject_request t sid ⟨some iid, some rsn, some appr⟩).2 sid iid
        = some "n" ∧
      (∀ rsn2, (HITL.Agent.reject_request t sid ⟨some iid, some rsn2, some appr⟩).2
        = (HITL.Agent.reject_request t sid ⟨some iid, some rsn, some appr⟩).2)) ∧
    (∀ (st : HITL.KV) (app_name tool_name : String),
      HITL.process_approval st app_name tool_name "n"
        = (st, .deny (HITL.deny_msg tool_name))) ∧
    (∀ (pend : HITL.MemAgent.PendMap) (sid iid rsn appr : String)
       (a0 : HITL.MemAgent.MemApproval), HITL.truthyStr iid →
      HITL.MemAgent.findApproval pend sid iid = some a0 →
      (HITL.MemAgent.reject_request pend sid ⟨some iid, some rsn, some appr⟩).1
        = .rejectedR sid iid rsn ∧
      HITL.MemAgent.mem_approval_response
          (HITL.MemAgent.reject_request pend sid ⟨some iid, some rsn, some appr⟩).2 sid iid
        = some "n") := by
  refine ⟨?_, ?_, ?_⟩
  · intro t sid iid rsn appr hiid
    refine ⟨?_, ?_, ?_⟩
    · simp [HITL.Agent.reject_request, hiid]
    · obtain ⟨it, hit, hs, hr, ha⟩ :=
        HITL.Agent.getItem_update t sid iid "rejected" "n" appr
      have hsnd : (HITL.Agent.reject_request t sid ⟨some iid, some rsn, some appr⟩).2
          = HITL.Agent.update_approval_status t sid iid "rejected" "n" appr := by
        simp [HITL.Agent.reject_request, hiid]
      rw [hsnd]
      simp only [HITL.Agent.get_approval_response, hit]
      rw [hs]
      rw [if_pos (by decide :
        ((("rejected" : String) == "approved") || (("rejected" : String) == "rejected"))
          = true)]
      exact hr
    · intro rsn2
      simp [HITL.Agent.reject_request, hiid]
  · intro st app_name tool_name
    unfold HITL.process_approval
    rw [if_neg (by decide : ¬ HITL.pyLower "n" = "t"),
        if_pos (by decide : HITL.pyLower "n" ≠ "y")]
  · intro pend sid iid rsn appr a0 hiid hfound
    obtain ⟨l2, hl2, hfind⟩ := HITL.MemAgent.updateFirst_found_terminal
      ((HITL.MemAgent.lookupP pend sid).getD []) iid
      (fun a => { a with status := "rejected", response := some "n",
                         approver := some appr, rejection_reason := some rsn })
      (fun a => rfl) (fun a => .inr rfl) a0 hfound
    constructor
    · simp [HITL.MemAgent.reject_request, hiid, hl2]
    · have hsnd : (HITL.MemAgent.reject_request pend sid
          ⟨some iid, some rsn, some appr⟩).2 = HITL.MemAgent.setP pend sid l2 := by
        simp [HITL.MemAgent.reject_request, hiid, hl2]
      rw [hsnd]
      unfold HITL.MemAgent.mem_approval_response
      rw [HITL.MemAgent.lookupP_setP, Option.getD_some, hfind]

/-- C10, witness: rejecting the pending fixture approval with an arbitrary
reason echoes the reason and leaves "n" as the answer resume will present. -/
theorem C10_witness :
    (HITL.truthyStr "i1" = true ∧
     HITL.MemAgent.findApproval HITL.Fx.pend0 "s1" "i1"
       = some (HITL.MemAgent.mkPending "s1" ⟨"i1", "nm", HITL.Fx.r1⟩)) ∧
    ((HITL.MemAgent.reject_request HITL.Fx.pend0 "s1"
        ⟨some "i1", some "too risky", some "bob"⟩).1 = .rejectedR "s1" "i1" "too risky" ∧
     HITL.MemAgent.mem_approval_response
       (HITL.MemAgent.reject_request HITL.Fx.pend0 "s1"
         ⟨some "i1", some "too risky", some "bob"⟩).2 "s1" "i1" = some "n") :=
  ⟨⟨by decide, by decide⟩,
   C10_theorem.2.2 HITL.Fx.pend0 "s1" "i1" "too risky" "bob"
     (HITL.MemAgent.mkPending "s1" ⟨"i1", "nm", HITL.Fx.r1⟩) (by decide) (by decide)⟩
